import Mathlib

/-!
Verification of the ZOF (Zero of Functions) root-finding library.

The repository offers six root-finding methods in `ZOF_CLI.py`
(`bisection_method`, `regula_falsi_method`, `secant_method`,
`newton_raphson_method`, `fixed_point_iteration`, `modified_secant_method`)
and a second, independently evolved set in `app.py` (`bisection`, `secant`,
`modified_secant`, ...).  Real arithmetic is modelled over `ℚ`; the function
being solved is an abstract parameter `f : ℚ → ℚ` standing for the evaluated
expression (`evaluate_function` in the source parses and evaluates a sympy
expression; `app.py` builds a polynomial closure).  Each Python `for`/`while`
loop becomes a structural recursion on a fuel counter equal to the remaining
iteration budget; state variables of the loop are explicit arguments.
-/

/-- One trace row of `bisection_method` / `regula_falsi_method` in
`ZOF_CLI.py` (keys `Iteration`, `a`, `b`, `c (Root Est)`, `f(c)`, `Error`),
also the row shape of `app.py`'s `bisection` (keys `n,a,b,c,f(c),error`). -/
structure BisRec where
  iteration : ℕ
  a : ℚ
  b : ℚ
  c : ℚ
  fc : ℚ
  error : ℚ
deriving Repr, DecidableEq

/-- One trace row of `secant_method` (keys `Iteration`, `x(i-1)`, `x(i)`,
`x(i+1) (Root Est)`, `f(x2)`, `Error`), also of `app.py`'s `secant`. -/
structure SecRec where
  iteration : ℕ
  x0 : ℚ
  x1 : ℚ
  x2 : ℚ
  fx2 : ℚ
  error : ℚ
deriving Repr, DecidableEq

/-- One trace row of `newton_raphson_method` (keys `Iteration`, `x(i)`,
`f(x)`, the derivative value, `x(i+1) (Root Est)`, `Error`). -/
structure NewtRec where
  iteration : ℕ
  x0 : ℚ
  f0 : ℚ
  df0 : ℚ
  x1 : ℚ
  error : ℚ
deriving Repr, DecidableEq

/-- One trace row of `fixed_point_iteration` (keys `Iteration`, `x(i)`,
`g(x)`, `Error`). -/
structure FPRec where
  iteration : ℕ
  x0 : ℚ
  gx : ℚ
  error : ℚ
deriving Repr, DecidableEq

/-- One trace row of `modified_secant_method` (keys `Iteration`, `x(i)`,
`x(i+1) (Root Est)`, `f(x)`, `Error`), also of `app.py`'s `modified_secant`. -/
structure MSRec where
  iteration : ℕ
  x0 : ℚ
  x1 : ℚ
  f0 : ℚ
  error : ℚ
deriving Repr, DecidableEq

/-- Return value of every `ZOF_CLI.py` method: either the success dict
`{"results": .., "root": .., "final_error": .., "iterations": ..}` or the
failure dict `{"error": msg}` (which carries no other key — in particular
no trace). -/
inductive Outcome (R : Type) where
  | ok (results : List R) (root : ℚ) (final_error : ℚ) (iterations : ℕ)
  | err (msg : String)
deriving Repr, DecidableEq

/-- The trace a caller receives from a `ZOF_CLI.py` result dict: the
`results` list on success, nothing on failure (the error dict has no
`results` key). -/
def traceOf {R : Type} : Outcome R → List R
  | .ok results _ _ _ => results
  | .err _ => []

/-- Return value of the `app.py` methods: the Python pair is either
`(root, iterations_list)` or `(None, message_string)`. -/
inductive AppOutcome (R : Type) where
  | ok (root : ℚ) (iterations : List R)
  | err (msg : String)
deriving Repr, DecidableEq

/-- The trace a caller receives from an `app.py` result pair: the list on
success, nothing on failure (the second component is then a string). -/
def appTraceOf {R : Type} : AppOutcome R → List R
  | .ok _ iterations => iterations
  | .err _ => []

/-- Endpoint replacement shared by `bisection_method` (ZOF_CLI.py lines
51-56) and `regula_falsi_method` (lines 91-96): if `fa * fc < 0` keep
`[a, c]` (caching `fa, fc`), otherwise keep `[c, b]` (caching `fc, fb`).
Returns `(a, b, fa, fb)` after replacement. -/
def bracket_update (a b c fa fb fc : ℚ) : ℚ × ℚ × ℚ × ℚ :=
  if fa * fc < 0 then (a, c, fa, fc) else (c, b, fc, fb)

/-- The `for i in range(1, max_iter + 1)` loop of `bisection_method`
(ZOF_CLI.py lines 34-57).  `fuel` is the remaining iteration budget, `i` the
index of the iteration about to run; `lastC, lastErr` are the values of the
Python locals `c` and `error` from the previous iteration, which the final
`return` statement (line 58) reads after the loop exhausts. -/
def bisection_loop (f : ℚ → ℚ) (tol : ℚ) :
    ℕ → ℕ → List BisRec → ℚ → ℚ → ℚ → ℚ → ℚ → ℚ → Outcome BisRec
  | 0, i, acc, _a, _b, _fa, _fb, lastC, lastErr =>
      .ok acc lastC lastErr (i - 1)
  | fuel + 1, i, acc, a, b, fa, fb, _lastC, _lastErr =>
      let c := (a + b) / 2
      let fc := f c
      let error := |b - a|
      let acc2 := acc ++ [⟨i, a, b, c, fc, error⟩]
      if |fc| < tol ∨ error < tol then .ok acc2 c error i
      else
        bisection_loop f tol fuel (i + 1) acc2
          (bracket_update a b c fa fb fc).1 (bracket_update a b c fa fb fc).2.1
          (bracket_update a b c fa fb fc).2.2.1 (bracket_update a b c fa fb fc).2.2.2
          c error

/-- `bisection_method(func_str, a, b, tol, max_iter)` from ZOF_CLI.py lines
25-58.  The sign-change precondition `fa * fb >= 0` is rejected before the
loop with an error dict. -/
def bisection_method (f : ℚ → ℚ) (a b tol : ℚ) (max_iter : ℕ) :
    Outcome BisRec :=
  let fa := f a
  let fb := f b
  if fa * fb ≥ 0 then
    .err "Bisection method fails: f(a) and f(b) must have opposite signs."
  else bisection_loop f tol max_iter 1 [] a b fa fb 0 0

/-- The loop of `regula_falsi_method` (ZOF_CLI.py lines 70-96).  The
denominator guard `abs(fa - fb) < 1e-12` is checked at the top of each
iteration and returns the bare error dict, discarding `results`. -/
def regula_falsi_loop (f : ℚ → ℚ) (tol : ℚ) :
    ℕ → ℕ → List BisRec → ℚ → ℚ → ℚ → ℚ → ℚ → ℚ → Outcome BisRec
  | 0, i, acc, _a, _b, _fa, _fb, lastC, lastErr =>
      .ok acc lastC lastErr (i - 1)
  | fuel + 1, i, acc, a, b, fa, fb, _lastC, _lastErr =>
      if |fa - fb| < 1 / 1000000000000 then
        .err "Division by zero in Regula Falsi."
      else
        let c := (a * fb - b * fa) / (fb - fa)
        let fc := f c
        let error := |fc|
        let acc2 := acc ++ [⟨i, a, b, c, fc, error⟩]
        if |fc| < tol then .ok acc2 c error i
        else
          regula_falsi_loop f tol fuel (i + 1) acc2
            (bracket_update a b c fa fb fc).1 (bracket_update a b c fa fb fc).2.1
            (bracket_update a b c fa fb fc).2.2.1 (bracket_update a b c fa fb fc).2.2.2
            c error

/-- `regula_falsi_method(func_str, a, b, tol, max_iter)` from ZOF_CLI.py
lines 60-98 (`c` is initialised to `a` before the loop, line 69). -/
def regula_falsi_method (f : ℚ → ℚ) (a b tol : ℚ) (max_iter : ℕ) :
    Outcome BisRec :=
  let fa := f a
  let fb := f b
  if fa * fb ≥ 0 then
    .err "Regula Falsi method fails: f(a) and f(b) must have opposite signs."
  else regula_falsi_loop f tol max_iter 1 [] a b fa fb a 0

/-- The loop of `secant_method` (ZOF_CLI.py lines 103-126).  On exhaustion
the Python function returns `{"iterations": max_iter}` together with the
last computed `x2` and `error` (line 128), carried here as `lastX2,
lastErr`. -/
def secant_loop (f : ℚ → ℚ) (tol : ℚ) (max_iter : ℕ) :
    ℕ → ℕ → List SecRec → ℚ → ℚ → ℚ → ℚ → Outcome SecRec
  | 0, _i, acc, _x0, _x1, lastX2, lastErr => .ok acc lastX2 lastErr max_iter
  | fuel + 1, i, acc, x0, x1, _lastX2, _lastErr =>
      let f0 := f x0
      let f1 := f x1
      if |f1 - f0| < 1 / 1000000000000 then
        .err "Division by zero in Secant Method."
      else
        let x2 := x1 - f1 * (x1 - x0) / (f1 - f0)
        let error := |x2 - x1|
        let acc2 := acc ++ [⟨i, x0, x1, x2, f x2, error⟩]
        if error < tol then .ok acc2 x2 error i
        else secant_loop f tol max_iter fuel (i + 1) acc2 x1 x2 x2 error

/-- `secant_method(func_str, x0, x1, tol, max_iter)` from ZOF_CLI.py lines
100-128. -/
def secant_method (f : ℚ → ℚ) (x0 x1 tol : ℚ) (max_iter : ℕ) :
    Outcome SecRec :=
  secant_loop f tol max_iter max_iter 1 [] x0 x1 0 0

/-- The loop of `newton_raphson_method` (ZOF_CLI.py lines 134-157).  `df`
is the evaluated derivative expression produced by `get_derivative`. -/
def newton_raphson_loop (f df : ℚ → ℚ) (tol : ℚ) (max_iter : ℕ) :
    ℕ → ℕ → List NewtRec → ℚ → ℚ → ℚ → Outcome NewtRec
  | 0, _i, acc, _x0, lastX1, lastErr => .ok acc lastX1 lastErr max_iter
  | fuel + 1, i, acc, x0, _lastX1, _lastErr =>
      let f0 := f x0
      let df0 := df x0
      if |df0| < 1 / 1000000000000 then
        .err "Derivative is zero. Newton-Raphson fails."
      else
        let x1 := x0 - f0 / df0
        let error := |x1 - x0|
        let acc2 := acc ++ [⟨i, x0, f0, df0, x1, error⟩]
        if error < tol then .ok acc2 x1 error i
        else newton_raphson_loop f df tol max_iter fuel (i + 1) acc2 x1 x1 error

/-- `newton_raphson_method(func_str, x0, tol, max_iter)` from ZOF_CLI.py
lines 130-158, with the derivative supplied as a function (the source
obtains it symbolically via `get_derivative`). -/
def newton_raphson_method (f df : ℚ → ℚ) (x0 tol : ℚ) (max_iter : ℕ) :
    Outcome NewtRec :=
  newton_raphson_loop f df tol max_iter max_iter 1 [] x0 0 0

/-- The loop of `fixed_point_iteration` (ZOF_CLI.py lines 169-183); the
supplied expression is taken to be `g(x)` directly. -/
def fixed_point_loop (g : ℚ → ℚ) (tol : ℚ) (max_iter : ℕ) :
    ℕ → ℕ → List FPRec → ℚ → ℚ → ℚ → Outcome FPRec
  | 0, _i, acc, _x0, lastX1, lastErr => .ok acc lastX1 lastErr max_iter
  | fuel + 1, i, acc, x0, _lastX1, _lastErr =>
      let x1 := g x0
      let error := |x1 - x0|
      let acc2 := acc ++ [⟨i, x0, x1, error⟩]
      if error < tol then .ok acc2 x1 error i
      else fixed_point_loop g tol max_iter fuel (i + 1) acc2 x1 x1 error

/-- `fixed_point_iteration(func_str, x0, tol, max_iter)` from ZOF_CLI.py
lines 160-185. -/
def fixed_point_iteration (g : ℚ → ℚ) (x0 tol : ℚ) (max_iter : ℕ) :
    Outcome FPRec :=
  fixed_point_loop g tol max_iter max_iter 1 [] x0 0 0

/-- The loop of `modified_secant_method` (ZOF_CLI.py lines 190-212): the
perturbed point is `x0 + delta * x0` and the guarded denominator is
`f(x0 + delta*x0) - f(x0)`. -/
def modified_secant_loop (f : ℚ → ℚ) (delta tol : ℚ) (max_iter : ℕ) :
    ℕ → ℕ → List MSRec → ℚ → ℚ → ℚ → Outcome MSRec
  | 0, _i, acc, _x0, lastX1, lastErr => .ok acc lastX1 lastErr max_iter
  | fuel + 1, i, acc, x0, _lastX1, _lastErr =>
      let f0 := f x0
      let fdelta := f (x0 + delta * x0)
      let denom := fdelta - f0
      if |denom| < 1 / 1000000000000 then
        .err "Division by zero in Modified Secant Method."
      else
        let x1 := x0 - delta * x0 * f0 / denom
        let error := |x1 - x0|
        let acc2 := acc ++ [⟨i, x0, x1, f0, error⟩]
        if error < tol then .ok acc2 x1 error i
        else modified_secant_loop f delta tol max_iter fuel (i + 1) acc2 x1 x1 error

/-- `modified_secant_method(func_str, x0, delta, tol, max_iter)` from
ZOF_CLI.py lines 187-214. -/
def modified_secant_method (f : ℚ → ℚ) (x0 delta tol : ℚ) (max_iter : ℕ) :
    Outcome MSRec :=
  modified_secant_loop f delta tol max_iter max_iter 1 [] x0 0 0

/-- The `while (b - a) > tol and iter_count < max_iter` loop of `app.py`'s
`bisection` (lines 20-31).  `fuel = max_iter - iter_count` is the remaining
budget; when it is zero the loop condition fails and line 32 returns
`(a+b)/2` with the accumulated iterations.  Each row records
`error = abs(b - a) / 2` (line 23), the halved bracket width. -/
def app_bisection_loop (f : ℚ → ℚ) (tol : ℚ) :
    ℕ → ℕ → List BisRec → ℚ → ℚ → AppOutcome BisRec
  | 0, _ic, acc, a, b => .ok ((a + b) / 2) acc
  | fuel + 1, ic, acc, a, b =>
      if b - a > tol then
        let c := (a + b) / 2
        let fc := f c
        let error := |b - a| / 2
        let acc2 := acc ++ [⟨ic + 1, a, b, c, fc, error⟩]
        if |fc| < tol then .ok c acc2
        else if f a * fc < 0 then app_bisection_loop f tol fuel (ic + 1) acc2 a c
        else app_bisection_loop f tol fuel (ic + 1) acc2 c b
      else .ok ((a + b) / 2) acc

/-- `bisection(f, a, b, tol, max_iter)` from app.py lines 14-32. -/
def app_bisection (f : ℚ → ℚ) (a b tol : ℚ) (max_iter : ℕ) :
    AppOutcome BisRec :=
  if f a * f b ≥ 0 then .err "f(a) and f(b) must have opposite signs"
  else app_bisection_loop f tol max_iter 0 [] a b

/-- The `while iter_count < max_iter` loop of `app.py`'s `secant` (lines
57-66); the denominator guard is the exact test `f(x1) - f(x0) == 0`, and
the degenerate return is `(None, "Division by zero")` which drops the
iterations list. -/
def app_secant_loop (f : ℚ → ℚ) (tol : ℚ) :
    ℕ → ℕ → List SecRec → ℚ → ℚ → ℚ → AppOutcome SecRec
  | 0, _ic, acc, _x0, _x1, lastX2 => .ok lastX2 acc
  | fuel + 1, ic, acc, x0, x1, _lastX2 =>
      if f x1 - f x0 = 0 then .err "Division by zero"
      else
        let x2 := x1 - f x1 * (x1 - x0) / (f x1 - f x0)
        let error := |x2 - x1|
        let acc2 := acc ++ [⟨ic + 1, x0, x1, x2, f x2, error⟩]
        if error < tol then .ok x2 acc2
        else app_secant_loop f tol fuel (ic + 1) acc2 x1 x2 x2

/-- `secant(f, x0, x1, tol, max_iter)` from app.py lines 54-67. -/
def app_secant (f : ℚ → ℚ) (x0 x1 tol : ℚ) (max_iter : ℕ) :
    AppOutcome SecRec :=
  app_secant_loop f tol max_iter 0 [] x0 x1 0

/-- The `while iter_count < max_iter` loop of `app.py`'s `modified_secant`
(lines 105-116); the denominator guard is the exact test
`(f_xd - f_x) == 0`. -/
def app_modified_secant_loop (f : ℚ → ℚ) (delta tol : ℚ) :
    ℕ → ℕ → List MSRec → ℚ → AppOutcome MSRec
  | 0, _ic, acc, x => .ok x acc
  | fuel + 1, ic, acc, x =>
      let fx := f x
      let fxd := f (x + delta * x)
      if fxd - fx = 0 then .err "Division by zero"
      else
        let xnew := x - delta * x * fx / (fxd - fx)
        let error := |xnew - x|
        let acc2 := acc ++ [⟨ic + 1, x, xnew, fx, error⟩]
        if error < tol then .ok xnew acc2
        else app_modified_secant_loop f delta tol fuel (ic + 1) acc2 xnew

/-- `modified_secant(f, x0, delta, tol, max_iter)` from app.py lines
101-117. -/
def app_modified_secant (f : ℚ → ℚ) (x0 delta tol : ℚ) (max_iter : ℕ) :
    AppOutcome MSRec :=
  app_modified_secant_loop f delta tol max_iter 0 [] x0

/-! ## Test function

`f(x) = x**2 - 4`, the function used by `test_methods.py` and the spec's
worked examples. -/

/-- The test function `x**2 - 4` of `test_methods.py` (written with `x * x`
so that the kernel can evaluate it on concrete rationals). -/
def pf : ℚ → ℚ := fun x => x * x - 4

/-! ## Iteration indices of the returned trace (C1 infrastructure)

Each loop appends exactly one record per executed iteration, carrying the
loop index; the lemmas below show the indices of the returned trace extend
the accumulator's indices by a contiguous block starting at the current
index, and that a failure returns no trace at all. -/

/-- The list `l` is `[1, 2, ..., k]` for some `k ≤ cap`. -/
def idx_contiguous (l : List ℕ) (cap : ℕ) : Prop :=
  ∃ k, k ≤ cap ∧ l = List.range' 1 k

/-- Engineered secant input: agrees with `x**2 - 4` except that `f 4 = -3`.
From seeds `x0 = 0, x1 = 1` the first secant iteration computes `x2 = 4`
and completes; the second iteration then finds `f(x1) - f(x0) = f 4 - f 1 =
0` and takes the degenerate-denominator return. -/
def cexF : ℚ → ℚ := fun x => if x = 4 then -3 else x * x - 4

/-- The `root` a caller reads from a `ZOF_CLI.py` result dict, when
present. -/
def rootOf {R : Type} : Outcome R → Option ℚ
  | .ok _ root _ _ => some root
  | .err _ => none

/-- The `final_error` a caller reads from a `ZOF_CLI.py` result dict, when
present. -/
def finalErrorOf {R : Type} : Outcome R → Option ℚ
  | .ok _ _ fe _ => some fe
  | .err _ => none

lemma bisection_loop_indices (f : ℚ → ℚ) (tol : ℚ) :
    ∀ fuel i acc a b fa fb lc le,
      ∃ m ≤ fuel,
        (traceOf (bisection_loop f tol fuel i acc a b fa fb lc le)).map BisRec.iteration
          = acc.map BisRec.iteration ++ List.range' i m := by
  intro fuel
  induction fuel with
  | zero =>
    intro i acc a b fa fb lc le
    exact ⟨0, Nat.le_refl 0, by simp [bisection_loop, traceOf]⟩
  | succ n ih =>
    intro i acc a b fa fb lc le
    simp only [bisection_loop]
    set c := (a + b) / 2 with hc
    set e := |b - a| with he
    by_cases hstop : |f c| < tol ∨ e < tol
    · rw [if_pos hstop]
      exact ⟨1, by omega, by simp [traceOf, List.range'_succ]⟩
    · rw [if_neg hstop]
      set u := bracket_update a b c fa fb (f c) with hu
      obtain ⟨m, hm, h⟩ :=
        ih (i + 1) (acc ++ [⟨i, a, b, c, f c, e⟩]) u.1 u.2.1 u.2.2.1 u.2.2.2 c e
      refine ⟨m + 1, by omega, ?_⟩
      rw [h, List.map_append, List.range'_succ]
      simp

lemma regula_falsi_loop_indices (f : ℚ → ℚ) (tol : ℚ) :
    ∀ fuel i acc a b fa fb lc le,
      traceOf (regula_falsi_loop f tol fuel i acc a b fa fb lc le) = [] ∨
      ∃ m ≤ fuel,
        (traceOf (regula_falsi_loop f tol fuel i acc a b fa fb lc le)).map BisRec.iteration
          = acc.map BisRec.iteration ++ List.range' i m := by
  intro fuel
  induction fuel with
  | zero =>
    intro i acc a b fa fb lc le
    exact Or.inr ⟨0, Nat.le_refl 0, by simp [regula_falsi_loop, traceOf]⟩
  | succ n ih =>
    intro i acc a b fa fb lc le
    simp only [regula_falsi_loop]
    by_cases hden : |fa - fb| < 1 / 1000000000000
    · rw [if_pos hden]
      exact Or.inl rfl
    · rw [if_neg hden]
      set c := (a * fb - b * fa) / (fb - fa) with hc
      by_cases hconv : |f c| < tol
      · rw [if_pos hconv]
        exact Or.inr ⟨1, by omega, by simp [traceOf, List.range'_succ]⟩
      · rw [if_neg hconv]
        set u := bracket_update a b c fa fb (f c) with hu
        rcases ih (i + 1) (acc ++ [⟨i, a, b, c, f c, |f c|⟩]) u.1 u.2.1 u.2.2.1 u.2.2.2
            c (|f c|) with h | ⟨m, hm, h⟩
        · exact Or.inl h
        · refine Or.inr ⟨m + 1, by omega, ?_⟩
          rw [h, List.map_append, List.range'_succ]
          simp

lemma secant_loop_indices (f : ℚ → ℚ) (tol : ℚ) (max_iter : ℕ) :
    ∀ fuel i acc x0 x1 lx le,
      traceOf (secant_loop f tol max_iter fuel i acc x0 x1 lx le) = [] ∨
      ∃ m ≤ fuel,
        (traceOf (secant_loop f tol max_iter fuel i acc x0 x1 lx le)).map SecRec.iteration
          = acc.map SecRec.iteration ++ List.range' i m := by
  intro fuel
  induction fuel with
  | zero =>
    intro i acc x0 x1 lx le
    exact Or.inr ⟨0, Nat.le_refl 0, by simp [secant_loop, traceOf]⟩
  | succ n ih =>
    intro i acc x0 x1 lx le
    simp only [secant_loop]
    by_cases hden : |f x1 - f x0| < 1 / 1000000000000
    · rw [if_pos hden]
      exact Or.inl rfl
    · rw [if_neg hden]
      set x2 := x1 - f x1 * (x1 - x0) / (f x1 - f x0) with hx2
      set e := |x2 - x1| with he
      by_cases hconv : e < tol
      · rw [if_pos hconv]
        exact Or.inr ⟨1, by omega, by simp [traceOf, List.range'_succ]⟩
      · rw [if_neg hconv]
        rcases ih (i + 1) (acc ++ [⟨i, x0, x1, x2, f x2, e⟩]) x1 x2 x2 e with h | ⟨m, hm, h⟩
        · exact Or.inl h
        · refine Or.inr ⟨m + 1, by omega, ?_⟩
          rw [h, List.map_append, List.range'_succ]
          simp

lemma newton_raphson_loop_indices (f df : ℚ → ℚ) (tol : ℚ) (max_iter : ℕ) :
    ∀ fuel i acc x0 lx le,
      traceOf (newton_raphson_loop f df tol max_iter fuel i acc x0 lx le) = [] ∨
      ∃ m ≤ fuel,
        (traceOf (newton_raphson_loop f df tol max_iter fuel i acc x0 lx le)).map
            NewtRec.iteration
          = acc.map NewtRec.iteration ++ List.range' i m := by
  intro fuel
  induction fuel with
  | zero =>
    intro i acc x0 lx le
    exact Or.inr ⟨0, Nat.le_refl 0, by simp [newton_raphson_loop, traceOf]⟩
  | succ n ih =>
    intro i acc x0 lx le
    simp only [newton_raphson_loop]
    by_cases hden : |df x0| < 1 / 1000000000000
    · rw [if_pos hden]
      exact Or.inl rfl
    · rw [if_neg hden]
      set x1 := x0 - f x0 / df x0 with hx1
      set e := |x1 - x0| with he
      by_cases hconv : e < tol
      · rw [if_pos hconv]
        exact Or.inr ⟨1, by omega, by simp [traceOf, List.range'_succ]⟩
      · rw [if_neg hconv]
        rcases ih (i + 1) (acc ++ [⟨i, x0, f x0, df x0, x1, e⟩]) x1 x1 e with h | ⟨m, hm, h⟩
        · exact Or.inl h
        · refine Or.inr ⟨m + 1, by omega, ?_⟩
          rw [h, List.map_append, List.range'_succ]
          simp

lemma fixed_point_loop_indices (g : ℚ → ℚ) (tol : ℚ) (max_iter : ℕ) :
    ∀ fuel i acc x0 lx le,
      ∃ m ≤ fuel,
        (traceOf (fixed_point_loop g tol max_iter fuel i acc x0 lx le)).map FPRec.iteration
          = acc.map FPRec.iteration ++ List.range' i m := by
  intro fuel
  induction fuel with
  | zero =>
    intro i acc x0 lx le
    exact ⟨0, Nat.le_refl 0, by simp [fixed_point_loop, traceOf]⟩
  | succ n ih =>
    intro i acc x0 lx le
    simp only [fixed_point_loop]
    set x1 := g x0 with hx1
    set e := |x1 - x0| with he
    by_cases hconv : e < tol
    · rw [if_pos hconv]
      exact ⟨1, by omega, by simp [traceOf, List.range'_succ]⟩
    · rw [if_neg hconv]
      obtain ⟨m, hm, h⟩ := ih (i + 1) (acc ++ [⟨i, x0, x1, e⟩]) x1 x1 e
      refine ⟨m + 1, by omega, ?_⟩
      rw [h, List.map_append, List.range'_succ]
      simp

lemma modified_secant_loop_indices (f : ℚ → ℚ) (delta tol : ℚ) (max_iter : ℕ) :
    ∀ fuel i acc x0 lx le,
      traceOf (modified_secant_loop f delta tol max_iter fuel i acc x0 lx le) = [] ∨
      ∃ m ≤ fuel,
        (traceOf (modified_secant_loop f delta tol max_iter fuel i acc x0 lx le)).map
            MSRec.iteration
          = acc.map MSRec.iteration ++ List.range' i m := by
  intro fuel
  induction fuel with
  | zero =>
    intro i acc x0 lx le
    exact Or.inr ⟨0, Nat.le_refl 0, by simp [modified_secant_loop, traceOf]⟩
  | succ n ih =>
    intro i acc x0 lx le
    simp only [modified_secant_loop]
    by_cases hden : |f (x0 + delta * x0) - f x0| < 1 / 1000000000000
    · rw [if_pos hden]
      exact Or.inl rfl
    · rw [if_neg hden]
      set x1 := x0 - delta * x0 * f x0 / (f (x0 + delta * x0) - f x0) with hx1
      set e := |x1 - x0| with he
      by_cases hconv : e < tol
      · rw [if_pos hconv]
        exact Or.inr ⟨1, by omega, by simp [traceOf, List.range'_succ]⟩
      · rw [if_neg hconv]
        rcases ih (i + 1) (acc ++ [⟨i, x0, x1, f x0, e⟩]) x1 x1 e with h | ⟨m, hm, h⟩
        · exact Or.inl h
        · refine Or.inr ⟨m + 1, by omega, ?_⟩
          rw [h, List.map_append, List.range'_succ]
          simp

/-- C1.  For every method (bisection, regula falsi, secant, Newton-Raphson,
fixed point, modified secant) and every input, the iteration-index fields of
the trace returned in the result form the contiguous sequence `1..k` with
no gaps, for some `k ≤ max_iter`. -/
theorem trace_indices_contiguous (f df g : ℚ → ℚ)
    (a b x0 x1 delta tol : ℚ) (max_iter : ℕ) :
    idx_contiguous
      ((traceOf (bisection_method f a b tol max_iter)).map BisRec.iteration) max_iter ∧
    idx_contiguous
      ((traceOf (regula_falsi_method f a b tol max_iter)).map BisRec.iteration) max_iter ∧
    idx_contiguous
      ((traceOf (secant_method f x0 x1 tol max_iter)).map SecRec.iteration) max_iter ∧
    idx_contiguous
      ((traceOf (newton_raphson_method f df x0 tol max_iter)).map NewtRec.iteration) max_iter ∧
    idx_contiguous
      ((traceOf (fixed_point_iteration g x0 tol max_iter)).map FPRec.iteration) max_iter ∧
    idx_contiguous
      ((traceOf (modified_secant_method f x0 delta tol max_iter)).map MSRec.iteration)
      max_iter := by
  refine ⟨?_, ?_, ?_, ?_, ?_, ?_⟩
  · unfold bisection_method
    by_cases hpre : f a * f b ≥ 0
    · rw [if_pos hpre]
      exact ⟨0, Nat.zero_le _, by simp [traceOf]⟩
    · rw [if_neg hpre]
      obtain ⟨m, hm, h⟩ := bisection_loop_indices f tol max_iter 1 [] a b (f a) (f b) 0 0
      exact ⟨m, hm, by simpa using h⟩
  · unfold regula_falsi_method
    by_cases hpre : f a * f b ≥ 0
    · rw [if_pos hpre]
      exact ⟨0, Nat.zero_le _, by simp [traceOf]⟩
    · rw [if_neg hpre]
      rcases regula_falsi_loop_indices f tol max_iter 1 [] a b (f a) (f b) a 0
        with h | ⟨m, hm, h⟩
      · exact ⟨0, Nat.zero_le _, by simp [h]⟩
      · exact ⟨m, hm, by simpa using h⟩
  · rcases secant_loop_indices f tol max_iter max_iter 1 [] x0 x1 0 0 with h | ⟨m, hm, h⟩
    · exact ⟨0, Nat.zero_le _, by simp [secant_method, h]⟩
    · exact ⟨m, hm, by simpa [secant_method] using h⟩
  · rcases newton_raphson_loop_indices f df tol max_iter max_iter 1 [] x0 0 0
      with h | ⟨m, hm, h⟩
    · exact ⟨0, Nat.zero_le _, by simp [newton_raphson_method, h]⟩
    · exact ⟨m, hm, by simpa [newton_raphson_method] using h⟩
  · obtain ⟨m, hm, h⟩ := fixed_point_loop_indices g tol max_iter max_iter 1 [] x0 0 0
    exact ⟨m, hm, by simpa [fixed_point_iteration] using h⟩
  · rcases modified_secant_loop_indices f delta tol max_iter max_iter 1 [] x0 0 0
      with h | ⟨m, hm, h⟩
    · exact ⟨0, Nat.zero_le _, by simp [modified_secant_method, h]⟩
    · exact ⟨m, hm, by simpa [modified_secant_method] using h⟩

/-! ## Outcome shape (C5 infrastructure)

Exhausting the iteration budget is a `return` of the success dict in every
method; the only `err` outcomes are the documented guard failures. -/

lemma bisection_loop_shape (f : ℚ → ℚ) (tol : ℚ) :
    ∀ fuel i acc a b fa fb lc le,
      ∃ tr root fe its,
        bisection_loop f tol fuel i acc a b fa fb lc le = .ok tr root fe its := by
  intro fuel
  induction fuel with
  | zero => intro i acc a b fa fb lc le; exact ⟨_, _, _, _, rfl⟩
  | succ n ih =>
    intro i acc a b fa fb lc le
    simp only [bisection_loop]
    split_ifs with h1
    · exact ⟨_, _, _, _, rfl⟩
    · exact ih _ _ _ _ _ _ _ _

lemma regula_falsi_loop_shape (f : ℚ → ℚ) (tol : ℚ) :
    ∀ fuel i acc a b fa fb lc le,
      (∃ tr root fe its,
        regula_falsi_loop f tol fuel i acc a b fa fb lc le = .ok tr root fe its) ∨
      regula_falsi_loop f tol fuel i acc a b fa fb lc le =
        .err "Division by zero in Regula Falsi." := by
  intro fuel
  induction fuel with
  | zero => intro i acc a b fa fb lc le; exact Or.inl ⟨_, _, _, _, rfl⟩
  | succ n ih =>
    intro i acc a b fa fb lc le
    simp only [regula_falsi_loop]
    split_ifs with h1 h2
    · exact Or.inr rfl
    · exact Or.inl ⟨_, _, _, _, rfl⟩
    · exact ih _ _ _ _ _ _ _ _

lemma secant_loop_shape (f : ℚ → ℚ) (tol : ℚ) (max_iter : ℕ) :
    ∀ fuel i acc x0 x1 lx le,
      (∃ tr root fe its,
        secant_loop f tol max_iter fuel i acc x0 x1 lx le = .ok tr root fe its) ∨
      secant_loop f tol max_iter fuel i acc x0 x1 lx le =
        .err "Division by zero in Secant Method." := by
  intro fuel
  induction fuel with
  | zero => intro i acc x0 x1 lx le; exact Or.inl ⟨_, _, _, _, rfl⟩
  | succ n ih =>
    intro i acc x0 x1 lx le
    simp only [secant_loop]
    split_ifs with h1 h2
    · exact Or.inr rfl
    · exact Or.inl ⟨_, _, _, _, rfl⟩
    · exact ih _ _ _ _ _ _

lemma newton_raphson_loop_shape (f df : ℚ → ℚ) (tol : ℚ) (max_iter : ℕ) :
    ∀ fuel i acc x0 lx le,
      (∃ tr root fe its,
        newton_raphson_loop f df tol max_iter fuel i acc x0 lx le = .ok tr root fe its) ∨
      newton_raphson_loop f df tol max_iter fuel i acc x0 lx le =
        .err "Derivative is zero. Newton-Raphson fails." := by
  intro fuel
  induction fuel with
  | zero => intro i acc x0 lx le; exact Or.inl ⟨_, _, _, _, rfl⟩
  | succ n ih =>
    intro i acc x0 lx le
    simp only [newton_raphson_loop]
    split_ifs with h1 h2
    · exact Or.inr rfl
    · exact Or.inl ⟨_, _, _, _, rfl⟩
    · exact ih _ _ _ _ _

lemma fixed_point_loop_shape (g : ℚ → ℚ) (tol : ℚ) (max_iter : ℕ) :
    ∀ fuel i acc x0 lx le,
      ∃ tr root fe its,
        fixed_point_loop g tol max_iter fuel i acc x0 lx le = .ok tr root fe its := by
  intro fuel
  induction fuel with
  | zero => intro i acc x0 lx le; exact ⟨_, _, _, _, rfl⟩
  | succ n ih =>
    intro i acc x0 lx le
    simp only [fixed_point_loop]
    split_ifs with h1
    · exact ⟨_, _, _, _, rfl⟩
    · exact ih _ _ _ _ _

lemma modified_secant_loop_shape (f : ℚ → ℚ) (delta tol : ℚ) (max_iter : ℕ) :
    ∀ fuel i acc x0 lx le,
      (∃ tr root fe its,
        modified_secant_loop f delta tol max_iter fuel i acc x0 lx le = .ok tr root fe its) ∨
      modified_secant_loop f delta tol max_iter fuel i acc x0 lx le =
        .err "Division by zero in Modified Secant Method." := by
  intro fuel
  induction fuel with
  | zero => intro i acc x0 lx le; exact Or.inl ⟨_, _, _, _, rfl⟩
  | succ n ih =>
    intro i acc x0 lx le
    simp only [modified_secant_loop]
    split_ifs with h1 h2
    · exact Or.inr rfl
    · exact Or.inl ⟨_, _, _, _, rfl⟩
    · exact ih _ _ _ _ _

/-- C5.  Reaching `max_iter` without satisfying the tolerance is not a
failure: the loop of every method, on exhausting its iteration budget,
returns the success dict carrying a root estimate and the final error
(first two conjuncts show the exhaustion return of the secant and
Newton-Raphson loops verbatim), and more generally every call returns
either a success-shaped result or one of the documented guard failures —
there is no iteration-cap failure kind. -/
theorem max_iter_capout_not_failure (f df g : ℚ → ℚ)
    (a b x0 x1 delta tol : ℚ) (max_iter : ℕ) :
    (∀ i acc X0 X1 lx le,
      secant_loop f tol max_iter 0 i acc X0 X1 lx le = .ok acc lx le max_iter) ∧
    (∀ i acc X0 lx le,
      newton_raphson_loop f df tol max_iter 0 i acc X0 lx le = .ok acc lx le max_iter) ∧
    ((∃ tr root fe its, bisection_method f a b tol max_iter = .ok tr root fe its) ∨
      bisection_method f a b tol max_iter =
        .err "Bisection method fails: f(a) and f(b) must have opposite signs.") ∧
    ((∃ tr root fe its, regula_falsi_method f a b tol max_iter = .ok tr root fe its) ∨
      regula_falsi_method f a b tol max_iter =
        .err "Regula Falsi method fails: f(a) and f(b) must have opposite signs." ∨
      regula_falsi_method f a b tol max_iter = .err "Division by zero in Regula Falsi.") ∧
    ((∃ tr root fe its, secant_method f x0 x1 tol max_iter = .ok tr root fe its) ∨
      secant_method f x0 x1 tol max_iter = .err "Division by zero in Secant Method.") ∧
    ((∃ tr root fe its, newton_raphson_method f df x0 tol max_iter = .ok tr root fe its) ∨
      newton_raphson_method f df x0 tol max_iter =
        .err "Derivative is zero. Newton-Raphson fails.") ∧
    (∃ tr root fe its, fixed_point_iteration g x0 tol max_iter = .ok tr root fe its) ∧
    ((∃ tr root fe its, modified_secant_method f x0 delta tol max_iter = .ok tr root fe its) ∨
      modified_secant_method f x0 delta tol max_iter =
        .err "Division by zero in Modified Secant Method.") := by
  refine ⟨fun i acc X0 X1 lx le => rfl, fun i acc X0 lx le => rfl, ?_, ?_, ?_, ?_, ?_, ?_⟩
  · unfold bisection_method
    by_cases hpre : f a * f b ≥ 0
    · rw [if_pos hpre]; exact Or.inr rfl
    · rw [if_neg hpre]; exact Or.inl (bisection_loop_shape f tol max_iter 1 [] a b _ _ 0 0)
  · unfold regula_falsi_method
    by_cases hpre : f a * f b ≥ 0
    · rw [if_pos hpre]; exact Or.inr (Or.inl rfl)
    · rw [if_neg hpre]
      rcases regula_falsi_loop_shape f tol max_iter 1 [] a b (f a) (f b) a 0 with h | h
      · exact Or.inl h
      · exact Or.inr (Or.inr h)
  · exact secant_loop_shape f tol max_iter max_iter 1 [] x0 x1 0 0
  · exact newton_raphson_loop_shape f df tol max_iter max_iter 1 [] x0 0 0
  · exact fixed_point_loop_shape g tol max_iter max_iter 1 [] x0 0 0
  · exact modified_secant_loop_shape f delta tol max_iter max_iter 1 [] x0 0 0

/-! ## Sign-change invariant of the bracketing methods (C2 infrastructure) -/

lemma bracket_flip (u v w : ℚ) (huv : u * v < 0) (huw : ¬ u * w < 0) (hw : w ≠ 0) :
    w * v < 0 := by
  have hu : u ≠ 0 := by
    rintro rfl
    simp at huv
  have huw2 : 0 < u * w :=
    lt_of_le_of_ne (not_lt.mp huw) (Ne.symm (mul_ne_zero hu hw))
  rcases mul_pos_iff.mp huw2 with ⟨hu2, hw2⟩ | ⟨hu2, hw2⟩
  · rcases mul_neg_iff.mp huv with ⟨_, hv⟩ | ⟨hu3, _⟩
    · exact mul_neg_of_pos_of_neg hw2 hv
    · linarith
  · rcases mul_neg_iff.mp huv with ⟨hu3, _⟩ | ⟨_, hv⟩
    · linarith
    · exact mul_neg_of_neg_of_pos hw2 hv

lemma bracket_update_fvals (f : ℚ → ℚ) (a b c : ℚ) :
    (bracket_update a b c (f a) (f b) (f c)).2.2.1 =
      f (bracket_update a b c (f a) (f b) (f c)).1 ∧
    (bracket_update a b c (f a) (f b) (f c)).2.2.2 =
      f (bracket_update a b c (f a) (f b) (f c)).2.1 := by
  unfold bracket_update
  split_ifs <;> exact ⟨rfl, rfl⟩

lemma bracket_update_preserves (f : ℚ → ℚ) (a b c : ℚ)
    (hab : f a * f b < 0) (hfc : f c ≠ 0) :
    f (bracket_update a b c (f a) (f b) (f c)).1 *
      f (bracket_update a b c (f a) (f b) (f c)).2.1 < 0 := by
  unfold bracket_update
  by_cases h : f a * f c < 0
  · rw [if_pos h]
    exact h
  · rw [if_neg h]
    exact bracket_flip (f a) (f b) (f c) hab h hfc

lemma bisection_loop_bracket (f : ℚ → ℚ) (tol : ℚ) (htol : 0 < tol) :
    ∀ fuel i acc a b lc le,
      f a * f b < 0 →
      (∀ r ∈ acc, f r.a * f r.b ≤ 0) →
      ∀ r ∈ traceOf (bisection_loop f tol fuel i acc a b (f a) (f b) lc le),
        f r.a * f r.b ≤ 0 := by
  intro fuel
  induction fuel with
  | zero =>
    intro i acc a b lc le hab hacc
    simpa [bisection_loop, traceOf] using hacc
  | succ n ih =>
    intro i acc a b lc le hab hacc
    simp only [bisection_loop]
    set c := (a + b) / 2 with hc
    set e := |b - a| with he
    have hacc2 : ∀ r ∈ acc ++ [(⟨i, a, b, c, f c, e⟩ : BisRec)], f r.a * f r.b ≤ 0 := by
      intro r hr
      rcases List.mem_append.mp hr with h | h
      · exact hacc r h
      · have := List.mem_singleton.mp h
        subst this
        simpa using le_of_lt hab
    by_cases hstop : |f c| < tol ∨ e < tol
    · rw [if_pos hstop]
      simpa [traceOf] using hacc2
    · rw [if_neg hstop]
      have hfc : f c ≠ 0 := fun h0 => hstop (Or.inl (by rw [h0, abs_zero]; exact htol))
      obtain ⟨hc1, hc2⟩ := bracket_update_fvals f a b c
      rw [hc1, hc2]
      exact ih (i + 1) (acc ++ [⟨i, a, b, c, f c, e⟩])
        (bracket_update a b c (f a) (f b) (f c)).1
        (bracket_update a b c (f a) (f b) (f c)).2.1 c e
        (bracket_update_preserves f a b c hab hfc) hacc2

lemma regula_falsi_loop_bracket (f : ℚ → ℚ) (tol : ℚ) (htol : 0 < tol) :
    ∀ fuel i acc a b lc le,
      f a * f b < 0 →
      (∀ r ∈ acc, f r.a * f r.b ≤ 0) →
      ∀ r ∈ traceOf (regula_falsi_loop f tol fuel i acc a b (f a) (f b) lc le),
        f r.a * f r.b ≤ 0 := by
  intro fuel
  induction fuel with
  | zero =>
    intro i acc a b lc le hab hacc
    simpa [regula_falsi_loop, traceOf] using hacc
  | succ n ih =>
    intro i acc a b lc le hab hacc
    simp only [regula_falsi_loop]
    by_cases hden : |f a - f b| < 1 / 1000000000000
    · rw [if_pos hden]
      simp [traceOf]
    · rw [if_neg hden]
      set c := (a * f b - b * f a) / (f b - f a) with hc
      have hacc2 : ∀ r ∈ acc ++ [(⟨i, a, b, c, f c, |f c|⟩ : BisRec)],
          f r.a * f r.b ≤ 0 := by
        intro r hr
        rcases List.mem_append.mp hr with h | h
        · exact hacc r h
        · have := List.mem_singleton.mp h
          subst this
          simpa using le_of_lt hab
      by_cases hconv : |f c| < tol
      · rw [if_pos hconv]
        simpa [traceOf] using hacc2
      · rw [if_neg hconv]
        have hfc : f c ≠ 0 :=
          fun h0 => hconv (by rw [h0, abs_zero]; exact htol)
        obtain ⟨hc1, hc2⟩ := bracket_update_fvals f a b c
        rw [hc1, hc2]
        exact ih (i + 1) (acc ++ [⟨i, a, b, c, f c, |f c|⟩])
          (bracket_update a b c (f a) (f b) (f c)).1
          (bracket_update a b c (f a) (f b) (f c)).2.1 c (|f c|)
          (bracket_update_preserves f a b c hab hfc) hacc2

/-- C2.  For bisection and regula falsi, if the initial bracket satisfies
`f(a)*f(b) < 0` (and the tolerance is positive, as the data-model invariant
requires), then the endpoint replacement of every loop step preserves the
sign-change invariant `f(a)*f(b) ≤ 0`: the shared replacement rule
`bracket_update` maps a strictly sign-changing bracket to a sign-changing
one whenever `f(c) ≠ 0`, and consequently every bracket recorded in the
trace of either method satisfies `f(a)*f(b) ≤ 0`. -/
theorem bracket_invariant_preserved (f : ℚ → ℚ) (a b tol : ℚ) (max_iter : ℕ)
    (htol : 0 < tol) (hab : f a * f b < 0) :
    (∀ c, f c ≠ 0 →
      f (bracket_update a b c (f a) (f b) (f c)).1 *
        f (bracket_update a b c (f a) (f b) (f c)).2.1 ≤ 0) ∧
    (∀ r ∈ traceOf (bisection_method f a b tol max_iter), f r.a * f r.b ≤ 0) ∧
    (∀ r ∈ traceOf (regula_falsi_method f a b tol max_iter), f r.a * f r.b ≤ 0) := by
  have hpre : ¬ f a * f b ≥ 0 := fun hge => absurd hab (not_lt.mpr hge)
  refine ⟨fun c hfc => le_of_lt (bracket_update_preserves f a b c hab hfc), ?_, ?_⟩
  · unfold bisection_method
    rw [if_neg hpre]
    exact bisection_loop_bracket f tol htol max_iter 1 [] a b 0 0 hab (by simp)
  · unfold regula_falsi_method
    rw [if_neg hpre]
    exact regula_falsi_loop_bracket f tol htol max_iter 1 [] a b a 0 hab (by simp)

theorem bracket_invariant_preserved_witness :
    0 < (1 / 100000 : ℚ) ∧ pf 0 * pf 3 < 0 ∧
    (∀ r ∈ traceOf (bisection_method pf 0 3 (1 / 100000) 100), pf r.a * pf r.b ≤ 0) ∧
    (∀ r ∈ traceOf (regula_falsi_method pf 0 3 (1 / 100000) 100), pf r.a * pf r.b ≤ 0) :=
  ⟨by norm_num, by norm_num [pf],
   (bracket_invariant_preserved pf 0 3 (1 / 100000) 100 (by norm_num) (by norm_num [pf])).2.1,
   (bracket_invariant_preserved pf 0 3 (1 / 100000) 100 (by norm_num) (by norm_num [pf])).2.2⟩

/-- Absolute value as a conditional, used to let `norm_num` evaluate the
loops on concrete rational inputs. -/
lemma abs_ite (q : ℚ) : |q| = if q < 0 then -q else q := by
  rcases lt_or_ge q 0 with h | h
  · rw [if_pos h, abs_of_neg h]
  · rw [if_neg (not_lt.mpr h), abs_of_nonneg h]

/-- C3.  If `f(a)*f(b) >= 0`, bisection and regula falsi (both variants)
fail with the invalid-bracket error before entering the loop: the result is
the bare error value, zero iterations are performed and the trace received
by the caller is empty. -/
theorem invalid_bracket_rejected_before_loop (f : ℚ → ℚ) (a b tol : ℚ)
    (max_iter : ℕ) (h : f a * f b ≥ 0) :
    bisection_method f a b tol max_iter =
      .err "Bisection method fails: f(a) and f(b) must have opposite signs." ∧
    regula_falsi_method f a b tol max_iter =
      .err "Regula Falsi method fails: f(a) and f(b) must have opposite signs." ∧
    app_bisection f a b tol max_iter = .err "f(a) and f(b) must have opposite signs" ∧
    traceOf (bisection_method f a b tol max_iter) = [] ∧
    traceOf (regula_falsi_method f a b tol max_iter) = [] ∧
    appTraceOf (app_bisection f a b tol max_iter) = [] := by
  have h1 : bisection_method f a b tol max_iter =
      .err "Bisection method fails: f(a) and f(b) must have opposite signs." := by
    unfold bisection_method
    rw [if_pos h]
  have h2 : regula_falsi_method f a b tol max_iter =
      .err "Regula Falsi method fails: f(a) and f(b) must have opposite signs." := by
    unfold regula_falsi_method
    rw [if_pos h]
  have h3 : app_bisection f a b tol max_iter =
      .err "f(a) and f(b) must have opposite signs" := by
    unfold app_bisection
    rw [if_pos h]
  exact ⟨h1, h2, h3, by rw [h1]; rfl, by rw [h2]; rfl, by rw [h3]; rfl⟩

theorem invalid_bracket_rejected_before_loop_witness :
    pf 1 * pf 2 ≥ 0 ∧
    bisection_method pf 1 2 (1 / 100000) 100 =
      .err "Bisection method fails: f(a) and f(b) must have opposite signs." ∧
    traceOf (bisection_method pf 1 2 (1 / 100000) 100) = [] :=
  ⟨by norm_num [pf],
   (invalid_bracket_rejected_before_loop pf 1 2 (1 / 100000) 100 (by norm_num [pf])).1,
   (invalid_bracket_rejected_before_loop pf 1 2 (1 / 100000) 100 (by norm_num [pf])).2.2.2.1⟩

lemma bisection_loop_error_width (f : ℚ → ℚ) (tol : ℚ) :
    ∀ fuel i acc a b fa fb lc le,
      (∀ r ∈ acc, r.error = |r.b - r.a|) →
      ∀ r ∈ traceOf (bisection_loop f tol fuel i acc a b fa fb lc le),
        r.error = |r.b - r.a| := by
  intro fuel
  induction fuel with
  | zero =>
    intro i acc a b fa fb lc le hacc
    simpa [bisection_loop, traceOf] using hacc
  | succ n ih =>
    intro i acc a b fa fb lc le hacc
    simp only [bisection_loop]
    set c := (a + b) / 2 with hc
    set e := |b - a| with he
    have hacc2 : ∀ r ∈ acc ++ [(⟨i, a, b, c, f c, e⟩ : BisRec)],
        r.error = |r.b - r.a| := by
      intro r hr
      rcases List.mem_append.mp hr with h | h
      · exact hacc r h
      · have := List.mem_singleton.mp h
        subst this
        simp [he]
    by_cases hstop : |f c| < tol ∨ e < tol
    · rw [if_pos hstop]
      simpa [traceOf] using hacc2
    · rw [if_neg hstop]
      exact ih _ _ _ _ _ _ _ _ hacc2

/-- C4.  Divergence of the recorded bisection error between the two
variants, at the failing input `f(x) = x**2 - 4`, `[a,b] = [0,3]`,
first iteration: the `ZOF_CLI.py` bisection records
`error = |b - a| = 3`, the full width of the bracket used to produce `c`,
but `app.py`'s `bisection` records the halved width `3/2 = |b - a|/2`,
which is not the full width `|3 - 0|` the claim asserts. -/
theorem bisection_error_width_divergence :
    (traceOf (bisection_method pf 0 3 (1 / 100000) 1)).head?.map BisRec.error
      = some 3 ∧
    (appTraceOf (app_bisection pf 0 3 (1 / 1000000) 1)).head?.map BisRec.error
      = some (3 / 2) ∧
    ¬ ((3 : ℚ) / 2 = |(3 : ℚ) - 0|) := by
  refine ⟨?_, ?_, by rw [abs_ite]; norm_num⟩
  · norm_num [bisection_method, bisection_loop, bracket_update, pf, abs_ite, traceOf]
  · norm_num [app_bisection, app_bisection_loop, pf, abs_ite, appTraceOf]

/-- C6 counterexample.  With `cexF`, seeds `0, 1`, `tol = 1e-6`: running
one iteration succeeds and yields a one-record trace (so the degenerate
failure of the longer run happens after a completed iteration), yet the
100-iteration run fails with the degenerate-denominator error and the
caller receives an empty trace — the partial trace IS discarded,
contradicting the claim. -/
theorem secant_partial_trace_discarded :
    (traceOf (secant_method cexF 0 1 (1 / 1000000) 1)).length = 1 ∧
    secant_method cexF 0 1 (1 / 1000000) 2 =
      .err "Division by zero in Secant Method." ∧
    traceOf (secant_method cexF 0 1 (1 / 1000000) 2) = [] := by
  refine ⟨?_, ?_, ?_⟩ <;>
    norm_num [secant_method, secant_loop, cexF, abs_ite, traceOf]

/-- C6 (amended).  When regula falsi, secant, or modified secant (either
variant) fails with the degenerate-denominator error, the trace records of
the iterations completed so far are NOT returned to the caller: the failure
value carries only the error message, and the trace the caller receives is
empty. -/
theorem degenerate_failure_returns_no_trace (f : ℚ → ℚ)
    (a b x0 x1 delta tol : ℚ) (max_iter : ℕ) :
    (∀ msg, regula_falsi_method f a b tol max_iter = .err msg →
      traceOf (regula_falsi_method f a b tol max_iter) = []) ∧
    (∀ msg, secant_method f x0 x1 tol max_iter = .err msg →
      traceOf (secant_method f x0 x1 tol max_iter) = []) ∧
    (∀ msg, modified_secant_method f x0 delta tol max_iter = .err msg →
      traceOf (modified_secant_method f x0 delta tol max_iter) = []) ∧
    (∀ msg, app_secant f x0 x1 tol max_iter = .err msg →
      appTraceOf (app_secant f x0 x1 tol max_iter) = []) ∧
    (∀ msg, app_modified_secant f x0 delta tol max_iter = .err msg →
      appTraceOf (app_modified_secant f x0 delta tol max_iter) = []) := by
  refine ⟨?_, ?_, ?_, ?_, ?_⟩ <;> intro msg h <;> rw [h] <;> rfl

theorem degenerate_failure_returns_no_trace_witness :
    secant_method cexF 0 1 (1 / 1000000) 2 =
      .err "Division by zero in Secant Method." ∧
    traceOf (secant_method cexF 0 1 (1 / 1000000) 2) = [] := by
  have h : secant_method cexF 0 1 (1 / 1000000) 2 =
      .err "Division by zero in Secant Method." := by
    norm_num [secant_method, secant_loop, cexF, abs_ite]
  exact ⟨h, (degenerate_failure_returns_no_trace cexF 0 0 0 1 0 (1 / 1000000) 2).2.1 _ h⟩

/-- C7.  For every function and every tolerance, the secant method called
with equal seeds `x0 = x1` (and at least one allowed iteration) fails with
the degenerate-denominator error on the first iteration, returning an empty
trace; the division is never reached because the guard fires first.  Both
variants behave this way (`ZOF_CLI.py` guards `|f(x1)-f(x0)| < 1e-12`,
`app.py` guards `f(x1)-f(x0) == 0`). -/
theorem secant_equal_seeds_degenerate (f : ℚ → ℚ) (x0 tol : ℚ) (max_iter : ℕ)
    (h : 1 ≤ max_iter) :
    secant_method f x0 x0 tol max_iter = .err "Division by zero in Secant Method." ∧
    traceOf (secant_method f x0 x0 tol max_iter) = [] ∧
    app_secant f x0 x0 tol max_iter = .err "Division by zero" ∧
    appTraceOf (app_secant f x0 x0 tol max_iter) = [] := by
  obtain ⟨n, rfl⟩ : ∃ n, max_iter = n + 1 := ⟨max_iter - 1, by omega⟩
  have h1 : secant_method f x0 x0 tol (n + 1) =
      .err "Division by zero in Secant Method." := by
    unfold secant_method
    simp only [secant_loop]
    rw [if_pos (show |f x0 - f x0| < 1 / 1000000000000 by
      rw [sub_self, abs_zero]; norm_num)]
  have h2 : app_secant f x0 x0 tol (n + 1) = .err "Division by zero" := by
    unfold app_secant
    simp only [app_secant_loop]
    rw [if_pos (sub_self (f x0))]
  exact ⟨h1, by rw [h1]; rfl, h2, by rw [h2]; rfl⟩

theorem secant_equal_seeds_degenerate_witness :
    1 ≤ 100 ∧
    secant_method pf 1 1 (1 / 1000000) 100 =
      .err "Division by zero in Secant Method." ∧
    traceOf (secant_method pf 1 1 (1 / 1000000) 100) = [] ∧
    app_secant pf 1 1 (1 / 1000000) 100 = .err "Division by zero" ∧
    appTraceOf (app_secant pf 1 1 (1 / 1000000) 100) = [] :=
  ⟨by norm_num, secant_equal_seeds_degenerate pf 1 (1 / 1000000) 100 (by norm_num)⟩


set_option maxRecDepth 100000 in
set_option maxHeartbeats 8000000 in
/-- C8.  Bisection on `f(x) = x**2 - 4` with bracket `[0, 3]`,
`tol = 1e-5`, `max_iter = 100` succeeds: it returns the root estimate
`1048575/524288` (within `1e-4` of the root `2.0`) and final recorded
error `3/262144 < 1e-4`. -/
theorem bisection_test_case_converges :
    rootOf (bisection_method pf 0 3 (1 / 100000) 100) = some (1048575 / 524288) ∧
    finalErrorOf (bisection_method pf 0 3 (1 / 100000) 100) = some (3 / 262144) ∧
    |(1048575 : ℚ) / 524288 - 2| < 1 / 10000 ∧
    ((3 : ℚ) / 262144) < 1 / 10000 := by
  refine ⟨?_, ?_, by rw [abs_ite]; norm_num, by norm_num⟩ <;>
    norm_num [bisection_method, bisection_loop, bracket_update, pf, abs_ite,
      rootOf, finalErrorOf]

/-- C9.  Every method is deterministic: two calls with componentwise
identical inputs (function, derivative, seeds, tolerance, iteration cap)
produce identical results — traces included, since the trace is part of the
result value.  The methods are pure functions of their arguments; no hidden
state influences the output. -/
theorem methods_deterministic (f f2 df df2 g g2 : ℚ → ℚ)
    (a a2 b b2 x0 x02 x1 x12 delta delta2 tol tol2 : ℚ) (mi mi2 : ℕ)
    (hf : f = f2) (hdf : df = df2) (hg : g = g2) (ha : a = a2) (hb : b = b2)
    (hx0 : x0 = x02) (hx1 : x1 = x12) (hd : delta = delta2) (ht : tol = tol2)
    (hmi : mi = mi2) :
    bisection_method f a b tol mi = bisection_method f2 a2 b2 tol2 mi2 ∧
    regula_falsi_method f a b tol mi = regula_falsi_method f2 a2 b2 tol2 mi2 ∧
    secant_method f x0 x1 tol mi = secant_method f2 x02 x12 tol2 mi2 ∧
    newton_raphson_method f df x0 tol mi = newton_raphson_method f2 df2 x02 tol2 mi2 ∧
    fixed_point_iteration g x0 tol mi = fixed_point_iteration g2 x02 tol2 mi2 ∧
    modified_secant_method f x0 delta tol mi =
      modified_secant_method f2 x02 delta2 tol2 mi2 ∧
    app_bisection f a b tol mi = app_bisection f2 a2 b2 tol2 mi2 ∧
    app_secant f x0 x1 tol mi = app_secant f2 x02 x12 tol2 mi2 ∧
    app_modified_secant f x0 delta tol mi = app_modified_secant f2 x02 delta2 tol2 mi2 := by
  subst hf; subst hdf; subst hg; subst ha; subst hb; subst hx0; subst hx1
  subst hd; subst ht; subst hmi
  exact ⟨rfl, rfl, rfl, rfl, rfl, rfl, rfl, rfl, rfl⟩

theorem methods_deterministic_witness :
    bisection_method pf 0 3 (1 / 100000) 100 = bisection_method pf 0 3 (1 / 100000) 100 ∧
    regula_falsi_method pf 0 3 (1 / 100000) 100 =
      regula_falsi_method pf 0 3 (1 / 100000) 100 ∧
    secant_method pf 1 2 (1 / 100000) 100 = secant_method pf 1 2 (1 / 100000) 100 ∧
    newton_raphson_method pf pf 1 (1 / 100000) 100 =
      newton_raphson_method pf pf 1 (1 / 100000) 100 ∧
    fixed_point_iteration pf 1 (1 / 100000) 100 =
      fixed_point_iteration pf 1 (1 / 100000) 100 ∧
    modified_secant_method pf 1 (1 / 100) (1 / 100000) 100 =
      modified_secant_method pf 1 (1 / 100) (1 / 100000) 100 ∧
    app_bisection pf 0 3 (1 / 100000) 100 = app_bisection pf 0 3 (1 / 100000) 100 ∧
    app_secant pf 1 2 (1 / 100000) 100 = app_secant pf 1 2 (1 / 100000) 100 ∧
    app_modified_secant pf 1 (1 / 100) (1 / 100000) 100 =
      app_modified_secant pf 1 (1 / 100) (1 / 100000) 100 :=
  methods_deterministic pf pf pf pf pf pf 0 0 3 3 1 1 2 2 (1 / 100) (1 / 100)
    (1 / 100000) (1 / 100000) 100 100 rfl rfl rfl rfl rfl rfl rfl rfl rfl rfl

/-- C10.  For every function `f` and every `delta`, the modified secant
method with seed `x0 = 0` (and at least one allowed iteration) fails with
the division-by-zero error on the first iteration: the perturbed point
`x0 + delta*x0 = 0` coincides with `x0`, so the denominator
`f(x0 + delta*x0) - f(x0)` is exactly zero.  Both variants fail this way
and return an empty trace. -/
theorem modified_secant_zero_seed_degenerate (f : ℚ → ℚ) (delta tol : ℚ)
    (max_iter : ℕ) (h : 1 ≤ max_iter) :
    modified_secant_method f 0 delta tol max_iter =
      .err "Division by zero in Modified Secant Method." ∧
    traceOf (modified_secant_method f 0 delta tol max_iter) = [] ∧
    app_modified_secant f 0 delta tol max_iter = .err "Division by zero" ∧
    appTraceOf (app_modified_secant f 0 delta tol max_iter) = [] := by
  obtain ⟨n, rfl⟩ : ∃ n, max_iter = n + 1 := ⟨max_iter - 1, by omega⟩
  have hpt : (0 : ℚ) + delta * 0 = 0 := by ring
  have h1 : modified_secant_method f 0 delta tol (n + 1) =
      .err "Division by zero in Modified Secant Method." := by
    unfold modified_secant_method
    simp only [modified_secant_loop]
    rw [if_pos (show |f ((0 : ℚ) + delta * 0) - f 0| < 1 / 1000000000000 by
      rw [hpt, sub_self, abs_zero]; norm_num)]
  have h2 : app_modified_secant f 0 delta tol (n + 1) = .err "Division by zero" := by
    unfold app_modified_secant
    simp only [app_modified_secant_loop]
    rw [if_pos (show f ((0 : ℚ) + delta * 0) - f 0 = 0 by rw [hpt, sub_self])]
  exact ⟨h1, by rw [h1]; rfl, h2, by rw [h2]; rfl⟩

theorem modified_secant_zero_seed_degenerate_witness :
    1 ≤ 100 ∧
    modified_secant_method pf 0 (1 / 100) (1 / 1000000) 100 =
      .err "Division by zero in Modified Secant Method." ∧
    traceOf (modified_secant_method pf 0 (1 / 100) (1 / 1000000) 100) = [] ∧
    app_modified_secant pf 0 (1 / 100) (1 / 1000000) 100 = .err "Division by zero" ∧
    appTraceOf (app_modified_secant pf 0 (1 / 100) (1 / 1000000) 100) = [] :=
  ⟨by norm_num, modified_secant_zero_seed_degenerate pf (1 / 100) (1 / 1000000) 100 (by norm_num)⟩
